import Mathlib

/-!
Verification of the wave-energy buoy optimization code.

Shallow embedding over ℚ (the Python code works on IEEE floats; all the
properties verified here are control-flow and algebraic facts that are
independent of rounding, so exact rationals model the arithmetic).

External library calls are modelled as inputs:
  * `scipy.integrate.solve_ivp` — its outcome is a `SolveResult` argument
    (an exception escaping the call, or a result with a success flag and a
    dense solution `ℚ → ℚ × ℚ` mapping time to `(z, ż)`);
  * `scipy.interpolate.interp1d(kind=linear, bounds_error=False,
    fill_value=0.0)` — reimplemented as `interp1d_fill0`;
  * `scipy.interpolate.CubicSpline` and its derivatives — the acceleration
    spline, the jerk spline (its first derivative) and the second
    derivative are passed as function arguments `ℚ → ℚ`.
-/

/-! ## config.py constants -/

def OPTIMIZATION_PENALTY : ℚ := 10 ^ 10

def STEADY_STATE_CUTOFF : ℚ := 50

def EVAL_POINTS : ℕ := 2000

def MASS_BOUNDS : ℚ × ℚ := (20000, 200000)

def DAMPING_BOUNDS : ℚ × ℚ := (10000, 1000000)

def MAX_DISPLACEMENT : ℚ := 35 / 10

def MAX_PTO_FORCE : ℚ := 1500000

def PTO_EFFICIENCY : Bool := true

/-- Container for buoy physical properties (config.py `BuoyProperties`). -/
structure BuoyProperties where
  diameter : ℚ
  height : ℚ
  area : ℚ
  k_hydrostatic : ℚ
  m_added : ℚ
  c_rad : ℚ
  k_drag : ℚ
  eta_pto : ℚ

/-- The mutable module state of `config.py` read by `dynamics.py`:
the feature toggles and `config.wave_interp` (None until wave data is
loaded, then the interpolation function). -/
structure DynConfig where
  radiation_damping : Bool
  viscous_drag : Bool
  wave_interp : Option (ℚ → ℚ)

/-! ## wave_processing.py -/

/-- Piecewise-linear interpolation through consecutive sample points,
evaluated at `t` (the in-range case of scipy `interp1d(kind=linear)`):
walk the breakpoints and interpolate in the first interval whose right
endpoint is ≥ t. -/
def interpSegs : List (ℚ × ℚ) → ℚ → ℚ
  | p :: q :: rest, t =>
    if t ≤ q.1 then p.2 + (q.2 - p.2) * (t - p.1) / (q.1 - p.1)
    else interpSegs (q :: rest) t
  | _, _ => 0

/-- scipy `interp1d(times, values, kind=linear, bounds_error=False,
fill_value=0.0)` as configured in `analyze_and_prepare_wave_data`:
linear interpolation inside `[t_first, t_last]`, exactly 0 outside. -/
def interp1d_fill0 (pts : List (ℚ × ℚ)) (t : ℚ) : ℚ :=
  match pts with
  | [] => 0
  | p :: rest =>
    if t < p.1 ∨ ((p :: rest).getLastD p).1 < t then 0
    else interpSegs (p :: rest) t

/-- The NaN-dropping step of `analyze_and_prepare_wave_data`: keep the
rows whose time and elevation are both present (`none` models NaN). -/
def cleanRows (rows : List (Option ℚ × Option ℚ)) : List (ℚ × ℚ) :=
  rows.filterMap fun r =>
    match r with
    | (some t, some e) => some (t, e)
    | _ => none

/-- `analyze_and_prepare_wave_data` (wave_processing.py): returns the
boolean the Python function returns, paired with the interpolation
function it installs into `config.wave_interp` (none when it fails).
`fileExists` models whether `pd.read_csv` raises `FileNotFoundError`
(caught, returns False); `hasCols` models the required-column check;
failures inside the `try` are all caught and turned into `False`. -/
def analyze_and_prepare_wave_data (fileExists hasCols : Bool)
    (rows : List (Option ℚ × Option ℚ)) : Bool × Option (ℚ → ℚ) :=
  if ¬ fileExists then (false, none)
  else if ¬ hasCols then (false, none)
  else
    let valid := cleanRows rows
    if valid.length < 2 then (false, none)
    else (true, some (interp1d_fill0 valid))

/-- `create_forcing_function` (wave_processing.py): 0 when no wave data
is loaded, otherwise `k_hydro * wave_interp(t)`. -/
def create_forcing_function (cfg : DynConfig) (t k_hydro : ℚ) : ℚ :=
  match cfg.wave_interp with
  | none => 0
  | some w => k_hydro * w t

/-! ## main.py control flow around data loading -/

/-- What main.py does after the wave-data loading step. -/
inductive MainStep where
  | exited
  | startedOptimization
deriving DecidableEq

/-- Outcome of evaluating a Python call expression: either an exception
escaped it, or it returned a value. -/
inductive CallOutcome (α : Type) where
  | raised
  | returned (a : α)

/-- The wave-data loading call in main.py as written:
`analyze_and_prepare_wave_data(dt_step=0.1)` omits the required
positional argument `file_path`, so Python raises a TypeError at
argument binding, before the function body ever runs — whatever
wave-data scenario (file present, columns present, rows) the run is
in. -/
def main_prep_call (_fileExists _hasCols : Bool)
    (_rows : List (Option ℚ × Option ℚ)) : CallOutcome Bool :=
  CallOutcome.raised

/-- The `try/except` around that call in main.py: an exception escaping
the call prints the `Could not analyze wave data` diagnostic and exits
with code 1; a returned value — main.py discards the boolean — would
let execution fall through into the optimization. -/
def main_run (call : CallOutcome Bool) : MainStep :=
  match call with
  | .raised => .exited
  | .returned _ => .startedOptimization

/-! ## dynamics.py -/

/-- `buoy_equation_of_motion` (dynamics.py): the ODE right-hand side,
mapping `(t, [z, ż])` to `[ż, z̈]`. -/
def buoy_equation_of_motion (cfg : DynConfig) (t : ℚ) (y : ℚ × ℚ)
    (m_buoy c_pto : ℚ) (props : BuoyProperties) : ℚ × ℚ :=
  let z := y.1
  let z_dot := y.2
  let m_total := m_buoy + props.m_added
  let F_wave := create_forcing_function cfg t props.k_hydrostatic
  let F_hydrostatic := -props.k_hydrostatic * z
  let F_pto := -c_pto * z_dot
  let F_radiation := if cfg.radiation_damping then -props.c_rad * z_dot else 0
  let F_drag := if cfg.viscous_drag then -props.k_drag * |z_dot| * z_dot else 0
  let F_total := F_wave + F_hydrostatic + F_pto + F_radiation + F_drag
  (z_dot, F_total / m_total)

/-! ## optimization.py -/

/-- Outcome of the `solve_ivp` call inside the `try` block of
`objective_function_enhanced`: either an exception escaped the call, or
the solver returned with a success flag and a dense solution
(`sol.sol`), mapping a time to the state `(z, ż)`. -/
inductive SolveResult where
  | raised : SolveResult
  | sol (success : Bool) (y : ℚ → ℚ × ℚ) : SolveResult

/-- `np.linspace a b n`: n evenly spaced points from a to b inclusive. -/
def linspace (a b : ℚ) (n : ℕ) : List ℚ :=
  (List.range n).map fun i : ℕ => a + (b - a) * (i : ℚ) / ((n : ℚ) - 1)

/-- Boolean-mask selection `xs[mask(ts)]` for two aligned arrays. -/
def applyMask (ts xs : List ℚ) (p : ℚ → Bool) : List ℚ :=
  ((ts.zip xs).filter fun q => p q.1).map (·.2)

/-- `np.mean` of a list (sum divided by length). -/
def meanQ (l : List ℚ) : ℚ := l.sum / l.length

/-- The power series of `objective_function_enhanced`: instantaneous
mechanical power `c_pto * ż²` at each sample, converted to electrical
power by the `eta_pto` factor when the `PTO_EFFICIENCY` toggle is on. -/
def elecPowerSeries (eta_pto c_pto : ℚ) (vs : List ℚ) : List ℚ :=
  let mech := vs.map fun v => c_pto * v ^ 2
  if PTO_EFFICIENCY then mech.map fun p => eta_pto * p else mech

/-- The steady-state velocity tail of `objective_function_enhanced`:
the sampled velocities at grid times `t > t0 + 50`. -/
def steadyTail (t0 t1 : ℚ) (y : ℚ → ℚ × ℚ) : List ℚ :=
  applyMask (linspace t0 t1 EVAL_POINTS)
    ((linspace t0 t1 EVAL_POINTS).map fun t => (y t).2)
    (fun t => decide (t0 + 50 < t))

/-- `objective_function_enhanced` (optimization.py).  `t0, t1` are
`WAVE_TIME[0]` and `WAVE_TIME[-1]`; `ivp` is the outcome of the
`solve_ivp` call (which consumes `k_hydro`, `m_added`, `c_rad`,
`k_drag`, so those appear only through it); the `print` of large powers
is a side effect with no influence on the returned score. -/
def objective_function_enhanced (t0 t1 : ℚ) (ivp : SolveResult)
    (eta_pto : ℚ) (m_buoy c_pto : ℚ) : ℚ :=
  if ¬ (MASS_BOUNDS.1 ≤ m_buoy ∧ m_buoy ≤ MASS_BOUNDS.2) then
    OPTIMIZATION_PENALTY
  else if ¬ (DAMPING_BOUNDS.1 ≤ c_pto ∧ c_pto ≤ DAMPING_BOUNDS.2) then
    OPTIMIZATION_PENALTY
  else
    match ivp with
    | .raised => OPTIMIZATION_PENALTY
    | .sol success y =>
      if ¬ success then OPTIMIZATION_PENALTY
      else
        let t_eval := linspace t0 t1 EVAL_POINTS
        let z := t_eval.map fun t => (y t).1
        let z_dot := t_eval.map fun t => (y t).2
        let pto_force := z_dot.map fun v => |c_pto * v|
        if z.any fun x => decide (MAX_DISPLACEMENT < |x|) then
          OPTIMIZATION_PENALTY
        else if pto_force.any fun f => decide (MAX_PTO_FORCE < f) then
          OPTIMIZATION_PENALTY
        else
          let tail := applyMask t_eval z_dot fun t => decide (t0 + 50 < t)
          let z_dot_steady := if tail.isEmpty then z_dot else tail
          if z_dot_steady.isEmpty then OPTIMIZATION_PENALTY
          else -(meanQ (elecPowerSeries eta_pto c_pto z_dot_steady))

/-! ## analysis.py -/

/-- `np.sign` of a rational. -/
def qsign (x : ℚ) : ℚ := if 0 < x then 1 else if x < 0 then -1 else 0

/-- The bracketing indices of `find_max_acceleration`:
`np.where(np.diff(np.sign(jerk_values)))[0]`, i.e. the indices `i` with
`sign(jerk[i+1]) ≠ sign(jerk[i])`. -/
def signChangeIndices (vals : List ℚ) : List ℕ :=
  (List.range (vals.length - 1)).filter fun i =>
    decide (qsign (vals.getD (i + 1) 0) ≠ qsign (vals.getD i 0))

/-- The Newton-iteration loop of `find_max_acceleration` (5 rounds):
from the current candidate, evaluate the jerk and its derivative; on a
near-zero derivative stop with the current candidate; otherwise take a
Newton step, and if the step leaves `[a, b]` reset to the midpoint and
stop. -/
def newtonLoop (jerk jp2 : ℚ → ℚ) (a b tMid : ℚ) : ℕ → ℚ → ℚ
  | 0, root => root
  | n + 1, root =>
    let j := jerk root
    let jp := jp2 root
    if (1 : ℚ) / 10 ^ 10 < |jp| then
      let root2 := root - j / jp
      if ¬ (a ≤ root2 ∧ root2 ≤ b) then tMid
      else newtonLoop jerk jp2 a b tMid n root2
    else root

/-- One bracketed root refinement of `find_max_acceleration`, seeded at
the interval midpoint.  (Over ℚ no exception can occur in the loop, so
the `try/except: pass` around it is vacuous in the model.) -/
def refineRoot (jerk jp2 : ℚ → ℚ) (a b : ℚ) : ℚ :=
  newtonLoop jerk jp2 a b ((a + b) / 2) 5 ((a + b) / 2)

/-- All refined jerk-root times accumulated by `find_max_acceleration`,
one per sign-change bracket `[t_eval[i], t_eval[i+1]]`. -/
def jerkRoots (tEval : List ℚ) (jerk jp2 : ℚ → ℚ) : List ℚ :=
  (signChangeIndices (tEval.map jerk)).map fun i =>
    refineRoot jerk jp2 (tEval.getD i 0) (tEval.getD (i + 1) 0)

/-- The roots surviving the steady-state filter
`jerk_roots > t_eval[0] + 50`. -/
def steadyRoots (tEval : List ℚ) (jerk jp2 : ℚ → ℚ) : List ℚ :=
  (jerkRoots tEval jerk jp2).filter fun r => decide (tEval.getD 0 0 + 50 < r)

/-- `np.argmax(np.abs(accel_at_roots))` plus the final selection:
returns the (time, acceleration) pair of the first root whose
acceleration has the largest absolute value, `none` on an empty list. -/
def pickMaxAbs (accel : ℚ → ℚ) (roots : List ℚ) : Option (ℚ × ℚ) :=
  roots.foldl
    (fun best r =>
      match best with
      | none => some (r, accel r)
      | some q => if |q.2| < |accel r| then some (r, accel r) else some q)
    none

/-- `find_max_acceleration` (analysis.py).  The acceleration values are
recomputed through the dynamics and fitted with a `CubicSpline`; the
spline `accel`, its derivative `jerk` and its second derivative `jp2`
are the external library objects, passed here as functions.  Returning
`none` models the `(None, None)` return. -/
def find_max_acceleration (tEval : List ℚ) (accel jerk jp2 : ℚ → ℚ) :
    Option (ℚ × ℚ) :=
  pickMaxAbs accel (steadyRoots tEval jerk jp2)

/-! ## Helper lemmas -/

theorem applyMask_eq_nil (ts xs : List ℚ) (p : ℚ → Bool)
    (h : ∀ t ∈ ts, p t = false) : applyMask ts xs p = [] := by
  unfold applyMask
  have hfil : (ts.zip xs).filter (fun q => p q.1) = [] := by
    rw [List.filter_eq_nil_iff]
    rintro ⟨a, b⟩ hab
    have ha := (List.of_mem_zip hab).1
    simp [h a ha]
  rw [hfil]
  rfl

theorem linspace_length (a b : ℚ) (n : ℕ) : (linspace a b n).length = n := by
  unfold linspace
  rw [List.length_map, List.length_range]

theorem mem_linspace (a b t : ℚ) (n : ℕ) (h : t ∈ linspace a b n) :
    ∃ i : ℕ, i < n ∧ t = a + (b - a) * (i : ℚ) / ((n : ℚ) - 1) := by
  unfold linspace at h
  rw [List.mem_map] at h
  obtain ⟨i, hi, ht⟩ := h
  rw [List.mem_range] at hi
  exact ⟨i, hi, ht.symm⟩

theorem linspace_le_right (a b t : ℚ) (n : ℕ) (hn : 2 ≤ n) (hab : a ≤ b)
    (h : t ∈ linspace a b n) : t ≤ b := by
  obtain ⟨i, hi, ht⟩ := mem_linspace a b t n h
  have hn1 : (0 : ℚ) < (n : ℚ) - 1 := by
    have h2 : (2 : ℚ) ≤ (n : ℚ) := by exact_mod_cast hn
    linarith
  have hiq : (i : ℚ) ≤ (n : ℚ) - 1 := by
    have h2 : (i : ℚ) + 1 ≤ (n : ℚ) := by exact_mod_cast hi
    linarith
  have hba : (0 : ℚ) ≤ b - a := by linarith
  have hfrac : (b - a) * i / ((n : ℚ) - 1) ≤ b - a := by
    rw [div_le_iff₀ hn1]
    nlinarith
  rw [ht]
  linarith

theorem length_ne_zero_isEmpty {α : Type} (l : List α) (h : l.length ≠ 0) :
    l.isEmpty = false := by
  cases l with
  | nil => simp at h
  | cons a l => rfl

theorem elecPowerSeries_nonneg (eta c : ℚ) (vs : List ℚ)
    (heta : 0 ≤ eta) (hc : 0 ≤ c) : ∀ x ∈ elecPowerSeries eta c vs, 0 ≤ x := by
  intro x hx
  unfold elecPowerSeries PTO_EFFICIENCY at hx
  simp only [if_true, List.map_map, List.mem_map, Function.comp] at hx
  obtain ⟨v, _, rfl⟩ := hx
  have hv : (0 : ℚ) ≤ v ^ 2 := sq_nonneg v
  positivity

theorem meanQ_nonneg (l : List ℚ) (h : ∀ x ∈ l, 0 ≤ x) : 0 ≤ meanQ l := by
  unfold meanQ
  exact div_nonneg (List.sum_nonneg h) (by positivity)

theorem objective_pass (t0 t1 eta m c : ℚ) (y : ℚ → ℚ × ℚ)
    (hm : MASS_BOUNDS.1 ≤ m ∧ m ≤ MASS_BOUNDS.2)
    (hc : DAMPING_BOUNDS.1 ≤ c ∧ c ≤ DAMPING_BOUNDS.2)
    (hz : ∀ t ∈ linspace t0 t1 EVAL_POINTS, |(y t).1| ≤ MAX_DISPLACEMENT)
    (hf : ∀ t ∈ linspace t0 t1 EVAL_POINTS, |c * (y t).2| ≤ MAX_PTO_FORCE) :
    objective_function_enhanced t0 t1 (.sol true y) eta m c =
      -(meanQ (elecPowerSeries eta c
        (if (steadyTail t0 t1 y).isEmpty then
          (linspace t0 t1 EVAL_POINTS).map (fun t => (y t).2)
        else steadyTail t0 t1 y))) := by
  unfold objective_function_enhanced
  rw [if_neg (not_not_intro hm), if_neg (not_not_intro hc)]
  dsimp only
  rw [if_neg (by simp : ¬¬(true = true))]
  have hzany : ((linspace t0 t1 EVAL_POINTS).map fun t => (y t).1).any
      (fun x => decide (MAX_DISPLACEMENT < |x|)) = false := by
    rw [List.any_map, List.any_eq_false]
    intro t ht
    simp only [Function.comp_apply, decide_eq_true_eq]
    exact not_lt.mpr (hz t ht)
  have hfany : (((linspace t0 t1 EVAL_POINTS).map fun t => (y t).2).map
      fun v => |c * v|).any (fun f => decide (MAX_PTO_FORCE < f)) = false := by
    rw [List.any_map, List.any_map, List.any_eq_false]
    intro t ht
    simp only [Function.comp_apply, decide_eq_true_eq]
    exact not_lt.mpr (hf t ht)
  rw [hzany]
  rw [if_neg (by simp : ¬(false = true))]
  rw [hfany]
  rw [if_neg (by simp : ¬(false = true))]
  have hmask : applyMask (linspace t0 t1 EVAL_POINTS)
      ((linspace t0 t1 EVAL_POINTS).map fun t => (y t).2)
      (fun t => decide (t0 + 50 < t)) = steadyTail t0 t1 y := rfl
  rw [hmask]
  by_cases htail : (steadyTail t0 t1 y).isEmpty = true
  · rw [if_pos htail]
    have hfull : ((linspace t0 t1 EVAL_POINTS).map fun t => (y t).2).isEmpty = false := by
      apply length_ne_zero_isEmpty
      rw [List.length_map, linspace_length]
      unfold EVAL_POINTS
      omega
    rw [hfull]
    rw [if_neg (by simp : ¬(false = true))]
  · rw [if_neg htail]
    have hne : (steadyTail t0 t1 y).isEmpty = false := by
      cases h2 : (steadyTail t0 t1 y).isEmpty
      · rfl
      · exact absurd h2 htail
    rw [hne]
    rw [if_neg (by simp : ¬(false = true))]

theorem pickMaxAbs_fold (f : ℚ → ℚ) (l : List ℚ) :
    ∀ t0 : ℚ,
      ∃ t, List.foldl
          (fun best r =>
            match best with
            | none => some (r, f r)
            | some q => if |q.2| < |f r| then some (r, f r) else some q)
          (some (t0, f t0)) l = some (t, f t) ∧
        (t = t0 ∨ t ∈ l) ∧ |f t0| ≤ |f t| ∧ ∀ r ∈ l, |f r| ≤ |f t| := by
  induction l with
  | nil =>
    intro t0
    exact ⟨t0, rfl, Or.inl rfl, le_refl _, by simp⟩
  | cons r l ih =>
    intro t0
    rw [List.foldl_cons]
    dsimp only
    by_cases hr : |f t0| < |f r|
    · rw [if_pos hr]
      obtain ⟨t, heq, hmem, hle, hall⟩ := ih r
      refine ⟨t, heq, ?_, ?_, ?_⟩
      · rcases hmem with h | h
        · exact Or.inr (h ▸ List.mem_cons_self r l)
        · exact Or.inr (List.mem_cons_of_mem r h)
      · exact le_trans (le_of_lt hr) hle
      · intro x hx
        rcases List.mem_cons.mp hx with h | h
        · exact h ▸ hle
        · exact hall x h
    · rw [if_neg hr]
      obtain ⟨t, heq, hmem, hle, hall⟩ := ih t0
      refine ⟨t, heq, ?_, hle, ?_⟩
      · rcases hmem with h | h
        · exact Or.inl h
        · exact Or.inr (List.mem_cons_of_mem r h)
      · intro x hx
        rcases List.mem_cons.mp hx with h | h
        · exact h ▸ le_trans (not_lt.mp hr) hle
        · exact hall x h

theorem pickMaxAbs_spec (f : ℚ → ℚ) (l : List ℚ) (hl : l ≠ []) :
    ∃ t, pickMaxAbs f l = some (t, f t) ∧ t ∈ l ∧ ∀ r ∈ l, |f r| ≤ |f t| := by
  cases l with
  | nil => exact absurd rfl hl
  | cons r rest =>
    unfold pickMaxAbs
    rw [List.foldl_cons]
    dsimp only
    obtain ⟨t, heq, hmem, hle, hall⟩ := pickMaxAbs_fold f rest r
    refine ⟨t, heq, ?_, ?_⟩
    · rcases hmem with h | h
      · exact h ▸ List.mem_cons_self r rest
      · exact List.mem_cons_of_mem r h
    · intro x hx
      rcases List.mem_cons.mp hx with h | h
      · exact h ▸ hle
      · exact hall x h

theorem newtonLoop_bracket (jerk jp2 : ℚ → ℚ) (a b tMid : ℚ)
    (hm1 : a ≤ tMid) (hm2 : tMid ≤ b) :
    ∀ (n : ℕ) (root : ℚ), a ≤ root → root ≤ b →
      a ≤ newtonLoop jerk jp2 a b tMid n root ∧
        newtonLoop jerk jp2 a b tMid n root ≤ b := by
  intro n
  induction n with
  | zero =>
    intro root h1 h2
    exact ⟨h1, h2⟩
  | succ n ih =>
    intro root h1 h2
    rw [newtonLoop]
    dsimp only
    by_cases hjp : (1 : ℚ) / 10 ^ 10 < |jp2 root|
    · rw [if_pos hjp]
      by_cases hin : a ≤ root - jerk root / jp2 root ∧ root - jerk root / jp2 root ≤ b
      · rw [if_neg (not_not_intro hin)]
        exact ih _ hin.1 hin.2
      · rw [if_pos hin]
        exact ⟨hm1, hm2⟩
    · rw [if_neg hjp]
      exact ⟨h1, h2⟩

theorem refineRoot_bracket (jerk jp2 : ℚ → ℚ) (a b : ℚ) (hab : a ≤ b) :
    a ≤ refineRoot jerk jp2 a b ∧ refineRoot jerk jp2 a b ≤ b := by
  unfold refineRoot
  have hm1 : a ≤ (a + b) / 2 := by linarith
  have hm2 : (a + b) / 2 ≤ b := by linarith
  exact newtonLoop_bracket jerk jp2 a b ((a + b) / 2) hm1 hm2 5 ((a + b) / 2) hm1 hm2

theorem signChangeIndices_lt (vals : List ℚ) (i : ℕ)
    (h : i ∈ signChangeIndices vals) : i + 1 < vals.length := by
  unfold signChangeIndices at h
  have hr := List.mem_range.mp (List.mem_filter.mp h).1
  omega

/-! ## Claims -/

/-- C2: for every time, state `[z, ż]`, masses and coefficients, the
dynamics derivative returns `[ż, z̈]` with
`z̈ = (F_wave + F_hydrostatic + F_pto + F_radiation + F_drag) / (m_buoy + m_added)`,
where `F_hydrostatic = -k_hydrostatic*z`, `F_pto = -c_pto*ż`,
`F_radiation = -c_rad*ż` when radiation damping is enabled else 0, and
`F_drag = -k_drag*|ż|*ż` when viscous drag is enabled else 0; the drag
force always opposes the sign of the velocity (its product with ż is
negative for nonzero ż and positive `k_drag`). -/
theorem claim_C2 (cfg : DynConfig) (t z z_dot m_buoy c_pto : ℚ)
    (props : BuoyProperties) (hk : 0 < props.k_drag) (hv : z_dot ≠ 0) :
    buoy_equation_of_motion cfg t (z, z_dot) m_buoy c_pto props =
      (z_dot,
        (create_forcing_function cfg t props.k_hydrostatic +
            -props.k_hydrostatic * z + -c_pto * z_dot +
            (if cfg.radiation_damping then -props.c_rad * z_dot else 0) +
            (if cfg.viscous_drag then -props.k_drag * |z_dot| * z_dot else 0)) /
          (m_buoy + props.m_added)) ∧
    (-props.k_drag * |z_dot| * z_dot) * z_dot < 0 := by
  constructor
  · rfl
  · have h1 : 0 < |z_dot| := abs_pos.mpr hv
    have h2 : 0 < z_dot * z_dot := mul_self_pos.mpr hv
    nlinarith [mul_pos (mul_pos hk h1) h2]

/-- C2 witness: the theorem instantiated at a concrete state and
concrete buoy properties. -/
theorem claim_C2_witness :
    buoy_equation_of_motion ⟨true, true, none⟩ 0 (1, 2) 100 10
        ⟨8, 6, 50, 500000, 1000, 2000, 3000, 9 / 10⟩ =
      (2, (0 + -500000 * 1 + -10 * 2 + -2000 * 2 + -3000 * 2 * 2) / 1100) ∧
    (-3000 * |(2 : ℚ)| * 2) * 2 < 0 := by
  have h := claim_C2 ⟨true, true, none⟩ 0 1 2 100 10
      ⟨8, 6, 50, 500000, 1000, 2000, 3000, 9 / 10⟩ (by norm_num) (by norm_num)
  obtain ⟨h1, h2⟩ := h
  constructor
  · rw [h1]
    norm_num [create_forcing_function]
  · simp at h2
    convert h2 using 2
    norm_num

/-- C3: for every candidate with mass or damping outside the configured
bounds, `objective_function_enhanced` returns exactly the configured
penalty constant; quantifying over every possible solver outcome `ivp`
captures that the result is decided before (and independently of) any
simulation. -/
theorem claim_C3 (t0 t1 eta m c : ℚ) (ivp : SolveResult)
    (h : ¬ (MASS_BOUNDS.1 ≤ m ∧ m ≤ MASS_BOUNDS.2) ∨
      ¬ (DAMPING_BOUNDS.1 ≤ c ∧ c ≤ DAMPING_BOUNDS.2)) :
    objective_function_enhanced t0 t1 ivp eta m c = OPTIMIZATION_PENALTY := by
  unfold objective_function_enhanced
  rcases h with h | h
  · rw [if_pos h]
  · by_cases hm : MASS_BOUNDS.1 ≤ m ∧ m ≤ MASS_BOUNDS.2
    · rw [if_neg (not_not_intro hm), if_pos h]
    · rw [if_pos hm]

/-- C3 witness: a candidate of mass 0 (below the 20000 kg lower bound)
is rejected with the penalty, whatever the solver would have said. -/
theorem claim_C3_witness :
    objective_function_enhanced 0 100 (.sol true fun _ => (0, 0)) (9 / 10)
      0 50000 = OPTIMIZATION_PENALTY :=
  claim_C3 0 100 (9 / 10) 0 50000 (.sol true fun _ => (0, 0))
    (Or.inl (by norm_num [MASS_BOUNDS]))

/-- C4: for every time outside the loaded wave time range and every
stiffness, the forcing lookup built from the loaded samples returns
exactly 0 (clamp-to-zero extrapolation). -/
theorem claim_C4 (p : ℚ × ℚ) (rest : List (ℚ × ℚ)) (t k : ℚ) (rd vd : Bool)
    (h : t < p.1 ∨ ((p :: rest).getLastD p).1 < t) :
    create_forcing_function ⟨rd, vd, some (interp1d_fill0 (p :: rest))⟩ t k = 0 := by
  show k * interp1d_fill0 (p :: rest) t = 0
  unfold interp1d_fill0
  dsimp only
  rw [if_pos h, mul_zero]

/-- C4 witness: querying 1 second after the last loaded sample time
returns 0 even with a nonzero stiffness. -/
theorem claim_C4_witness :
    create_forcing_function
      ⟨true, true, some (interp1d_fill0 [(0, 5), (10, 7)])⟩ 11 3 = 0 :=
  claim_C4 (0, 5) [(10, 7)] 11 3 true true (Or.inr (by norm_num [List.getLastD]))

/-- C6: when the ODE integration raises an exception inside the
`try` block, or reports failure via the success flag, the objective
returns the penalty score; since the model of the objective is a total
function into ℚ for every solver outcome, no exception propagates to
the optimizer driver. -/
theorem claim_C6 (t0 t1 eta m c : ℚ) (y : ℚ → ℚ × ℚ) :
    objective_function_enhanced t0 t1 .raised eta m c = OPTIMIZATION_PENALTY ∧
    objective_function_enhanced t0 t1 (.sol false y) eta m c = OPTIMIZATION_PENALTY := by
  constructor
  · unfold objective_function_enhanced
    by_cases hm : MASS_BOUNDS.1 ≤ m ∧ m ≤ MASS_BOUNDS.2
    · rw [if_neg (not_not_intro hm)]
      by_cases hc : DAMPING_BOUNDS.1 ≤ c ∧ c ≤ DAMPING_BOUNDS.2
      · rw [if_neg (not_not_intro hc)]
      · rw [if_pos hc]
    · rw [if_pos hm]
  · unfold objective_function_enhanced
    by_cases hm : MASS_BOUNDS.1 ≤ m ∧ m ≤ MASS_BOUNDS.2
    · rw [if_neg (not_not_intro hm)]
      by_cases hc : DAMPING_BOUNDS.1 ≤ c ∧ c ≤ DAMPING_BOUNDS.2
      · rw [if_neg (not_not_intro hc)]
        dsimp only
        rw [if_pos (by simp : ¬(false = true))]
      · rw [if_pos hc]
    · rw [if_pos hm]

/-- C8: in every scenario on which wave-data preparation fails
(`analyze_and_prepare_wave_data` reports failure: missing required
columns, too few valid samples, or a missing file), the overall
workflow halts with a diagnostic before any optimization starts.  In
main.py as written this holds because the call itself omits the
required `file_path` argument: it raises a TypeError at argument
binding in every scenario, the `except` block prints a diagnostic and
exits with code 1, so no run — in particular no failing-data run —
reaches the optimization. -/
theorem claim_C8 (fileExists hasCols : Bool)
    (rows : List (Option ℚ × Option ℚ))
    (_hfail : (analyze_and_prepare_wave_data fileExists hasCols rows).1 = false) :
    main_run (main_prep_call fileExists hasCols rows) = MainStep.exited := rfl

/-- C8 witness: a CSV without the required columns — preparation
reports failure, and the workflow exits before the optimization. -/
theorem claim_C8_witness :
    (analyze_and_prepare_wave_data true false
      [(some 0, some 1), (some 1, some 2)]).1 = false ∧
    main_run (main_prep_call true false
      [(some 0, some 1), (some 1, some 2)]) = MainStep.exited :=
  ⟨rfl, claim_C8 true false [(some 0, some 1), (some 1, some 2)] rfl⟩

theorem objective_final_branch (eta c : ℚ) (heta : 0 ≤ eta) (hc0 : 0 ≤ c)
    (vs : List ℚ) :
    (if vs.isEmpty = true then OPTIMIZATION_PENALTY
      else -(meanQ (elecPowerSeries eta c vs))) = OPTIMIZATION_PENALTY ∨
    (if vs.isEmpty = true then OPTIMIZATION_PENALTY
      else -(meanQ (elecPowerSeries eta c vs))) ≤ 0 := by
  by_cases hE : vs.isEmpty = true
  · left
    rw [if_pos hE]
  · right
    rw [if_neg hE]
    have h := meanQ_nonneg (elecPowerSeries eta c vs)
      (elecPowerSeries_nonneg eta c vs heta hc0)
    linarith

/-- C5: for every candidate with a successful simulation, if any of the
2000 sampled displacement magnitudes exceeds the displacement limit, or
any sampled instantaneous PTO force `|c_pto * ż|` exceeds the force
limit, the objective returns exactly the penalty constant. -/
theorem claim_C5 (t0 t1 eta m c : ℚ) (y : ℚ → ℚ × ℚ)
    (h : ∃ t ∈ linspace t0 t1 EVAL_POINTS,
      MAX_DISPLACEMENT < |(y t).1| ∨ MAX_PTO_FORCE < |c * (y t).2|) :
    objective_function_enhanced t0 t1 (.sol true y) eta m c =
      OPTIMIZATION_PENALTY := by
  unfold objective_function_enhanced
  by_cases hm : MASS_BOUNDS.1 ≤ m ∧ m ≤ MASS_BOUNDS.2
  case neg => rw [if_pos hm]
  rw [if_neg (not_not_intro hm)]
  by_cases hc : DAMPING_BOUNDS.1 ≤ c ∧ c ≤ DAMPING_BOUNDS.2
  case neg => rw [if_pos hc]
  rw [if_neg (not_not_intro hc)]
  dsimp only
  rw [if_neg (by simp : ¬¬(true = true))]
  by_cases hz : ((linspace t0 t1 EVAL_POINTS).map fun t => (y t).1).any
      (fun x => decide (MAX_DISPLACEMENT < |x|)) = true
  · rw [if_pos hz]
  · rw [if_neg hz]
    obtain ⟨t, ht, hdisj⟩ := h
    rcases hdisj with hd | hf2
    · exfalso
      apply hz
      rw [List.any_map, List.any_eq_true]
      refine ⟨t, ht, ?_⟩
      simp only [Function.comp_apply, decide_eq_true_eq]
      exact hd
    · have hforce : (((linspace t0 t1 EVAL_POINTS).map fun t => (y t).2).map
          fun v => |c * v|).any (fun f => decide (MAX_PTO_FORCE < f)) = true := by
        rw [List.any_map, List.any_map, List.any_eq_true]
        refine ⟨t, ht, ?_⟩
        simp only [Function.comp_apply, decide_eq_true_eq]
        exact hf2
      rw [if_pos hforce]

/-- C5 witness: a solution stuck at z = 4 m violates the 3.5 m
displacement limit, so the candidate is rejected with the penalty. -/
theorem claim_C5_witness :
    objective_function_enhanced 0 100 (.sol true fun _ => (4, 0)) (9 / 10)
      20000 10000 = OPTIMIZATION_PENALTY := by
  apply claim_C5
  refine ⟨0, ?_, Or.inl (by norm_num [MAX_DISPLACEMENT])⟩
  unfold linspace
  exact List.mem_map.mpr
    ⟨0, List.mem_range.mpr (by norm_num [EVAL_POINTS]), by norm_num⟩

/-- C9: for every candidate (with the physical efficiency factor
nonnegative, as the 0.90 used by the program is), the objective returns
either exactly the penalty constant or a non-positive score: a
candidate passing the bounds check has `c_pto ≥ 10000 > 0`, so the
average of the sampled powers `eta * c_pto * ż²` is nonnegative and its
negation non-positive. -/
theorem claim_C9 (t0 t1 eta m c : ℚ) (ivp : SolveResult) (heta : 0 ≤ eta) :
    objective_function_enhanced t0 t1 ivp eta m c = OPTIMIZATION_PENALTY ∨
    objective_function_enhanced t0 t1 ivp eta m c ≤ 0 := by
  unfold objective_function_enhanced
  by_cases hm : MASS_BOUNDS.1 ≤ m ∧ m ≤ MASS_BOUNDS.2
  case neg => left; rw [if_pos hm]
  rw [if_neg (not_not_intro hm)]
  by_cases hc : DAMPING_BOUNDS.1 ≤ c ∧ c ≤ DAMPING_BOUNDS.2
  case neg => left; rw [if_pos hc]
  rw [if_neg (not_not_intro hc)]
  have hc0 : (0 : ℚ) ≤ c := le_trans (by norm_num [DAMPING_BOUNDS]) hc.1
  cases ivp with
  | raised => left; rfl
  | sol success y =>
    cases success with
    | false =>
      left
      dsimp only
      rw [if_pos (by simp : ¬(false = true))]
    | true =>
      dsimp only
      rw [if_neg (by simp : ¬¬(true = true))]
      by_cases hz : ((linspace t0 t1 EVAL_POINTS).map fun t => (y t).1).any
          (fun x => decide (MAX_DISPLACEMENT < |x|)) = true
      · left; rw [if_pos hz]
      rw [if_neg hz]
      by_cases hf : (((linspace t0 t1 EVAL_POINTS).map fun t => (y t).2).map
          fun v => |c * v|).any (fun f => decide (MAX_PTO_FORCE < f)) = true
      · left; rw [if_pos hf]
      rw [if_neg hf]
      exact objective_final_branch eta c heta hc0 _

/-- C9 witness: the theorem at the program's efficiency 0.90 and an
arbitrary candidate. -/
theorem claim_C9_witness :
    objective_function_enhanced 0 100 .raised (9 / 10) 50000 50000 =
      OPTIMIZATION_PENALTY ∨
    objective_function_enhanced 0 100 .raised (9 / 10) 50000 50000 ≤ 0 :=
  claim_C9 0 100 (9 / 10) 50000 50000 .raised (by norm_num)

/-- C7: `find_max_acceleration` either returns `none` — exactly when no
refined jerk root survives the steady-state filter — or returns a pair
`(t, accel t)` whose time is a surviving root later than
`t_eval[0] + 50` and whose acceleration has the largest absolute value
among all surviving roots. -/
theorem claim_C7 (tEval : List ℚ) (accel jerk jp2 : ℚ → ℚ) :
    (steadyRoots tEval jerk jp2 = [] ∧
      find_max_acceleration tEval accel jerk jp2 = none) ∨
    ∃ t, find_max_acceleration tEval accel jerk jp2 = some (t, accel t) ∧
      t ∈ steadyRoots tEval jerk jp2 ∧ tEval.getD 0 0 + 50 < t ∧
      ∀ r ∈ steadyRoots tEval jerk jp2, |accel r| ≤ |accel t| := by
  by_cases hS : steadyRoots tEval jerk jp2 = []
  · left
    refine ⟨hS, ?_⟩
    unfold find_max_acceleration
    rw [hS]
    rfl
  · right
    obtain ⟨t, heq, hmem, hall⟩ := pickMaxAbs_spec accel _ hS
    refine ⟨t, heq, hmem, ?_, hall⟩
    unfold steadyRoots at hmem
    exact of_decide_eq_true (List.mem_filter.mp hmem).2

/-- C10: every refined jerk-root time lies inside its bracketing sample
interval `[t_eval[i], t_eval[i+1]]`: a Newton step that leaves the
interval is replaced by the interval midpoint, and a near-zero
derivative keeps the last in-interval candidate. -/
theorem claim_C10 (tEval : List ℚ) (jerk jp2 : ℚ → ℚ)
    (hmono : tEval.Pairwise (· ≤ ·)) :
    ∀ i ∈ signChangeIndices (tEval.map jerk),
      tEval.getD i 0 ≤
        refineRoot jerk jp2 (tEval.getD i 0) (tEval.getD (i + 1) 0) ∧
      refineRoot jerk jp2 (tEval.getD i 0) (tEval.getD (i + 1) 0) ≤
        tEval.getD (i + 1) 0 := by
  intro i hi
  have hlen : i + 1 < tEval.length := by
    have h2 := signChangeIndices_lt _ _ hi
    rwa [List.length_map] at h2
  have hab : tEval.getD i 0 ≤ tEval.getD (i + 1) 0 := by
    have h3 := List.pairwise_iff_get.mp hmono ⟨i, by omega⟩ ⟨i + 1, hlen⟩
      (Fin.mk_lt_mk.mpr (Nat.lt_succ_self i))
    rw [List.get_eq_getElem, List.get_eq_getElem] at h3
    rw [List.getD_eq_getElem _ _ (by omega : i < tEval.length),
      List.getD_eq_getElem _ _ hlen]
    exact h3
  exact refineRoot_bracket jerk jp2 _ _ hab

/-- C10 witness: the bracket `[0, 1]` of the sign change of a concrete
jerk function contains its refined root. -/
theorem claim_C10_witness :
    (0 : ℚ) ≤ refineRoot (fun t => if t < 1 then (1 : ℚ) else -1)
        (fun _ => 0) 0 1 ∧
      refineRoot (fun t => if t < 1 then (1 : ℚ) else -1) (fun _ => 0) 0 1 ≤ 1 :=
  claim_C10 [0, 1, 2] (fun t => if t < 1 then (1 : ℚ) else -1) (fun _ => 0)
    (by norm_num [List.pairwise_cons]) 0 (by decide)

theorem steadyTail_short_empty :
    steadyTail 0 (1999 / 100) (fun _ => ((0 : ℚ), (1 : ℚ))) = [] := by
  unfold steadyTail
  apply applyMask_eq_nil
  intro t ht
  apply decide_eq_false
  have hle := linspace_le_right 0 (1999 / 100) t EVAL_POINTS
    (by norm_num [EVAL_POINTS]) (by norm_num) ht
  intro hcon
  linarith

/-- C1 counterexample: a 19.99 s wave record makes the steady-state
tail (samples with `t > t0 + 50`) empty, yet the objective does not
return the penalty constant: it scores the candidate `-9000` from the
full sample set. -/
theorem claim_C1_counterexample :
    steadyTail 0 (1999 / 100) (fun _ => ((0 : ℚ), (1 : ℚ))) = [] ∧
    objective_function_enhanced 0 (1999 / 100) (.sol true fun _ => (0, 1))
      (9 / 10) 20000 10000 = -9000 ∧
    (-9000 : ℚ) ≠ OPTIMIZATION_PENALTY := by
  refine ⟨steadyTail_short_empty, ?_, by norm_num [OPTIMIZATION_PENALTY]⟩
  rw [objective_pass 0 (1999 / 100) (9 / 10) 20000 10000 (fun _ => (0, 1))
    (by norm_num [MASS_BOUNDS]) (by norm_num [DAMPING_BOUNDS])
    (by intro t ht; norm_num [MAX_DISPLACEMENT])
    (by intro t ht; norm_num [MAX_PTO_FORCE])]
  rw [steadyTail_short_empty]
  simp only [List.isEmpty_nil, if_true]
  have hmap : ((linspace 0 (1999 / 100) EVAL_POINTS).map
      fun t => (((fun _ => ((0 : ℚ), (1 : ℚ))) t).2)) =
      List.replicate EVAL_POINTS 1 := by
    rw [show (fun t => (((fun _ => ((0 : ℚ), (1 : ℚ))) t).2)) = fun _ : ℚ => (1 : ℚ) from rfl]
    rw [List.map_const', linspace_length]
  rw [hmap]
  unfold elecPowerSeries
  rw [show PTO_EFFICIENCY = true from rfl]
  simp only [if_true]
  rw [List.map_replicate, List.map_replicate]
  unfold meanQ
  rw [List.sum_replicate, List.length_replicate]
  norm_num [EVAL_POINTS]

/-- C1 amended: after a successful simulation within the displacement
and force limits, if the steady-state tail is empty the objective does
NOT reject the candidate: it falls back to the full 2000-sample
velocity series and returns minus the average electrical power computed
over that full series (the penalty at this step would require the full
series to be empty too, which the 2000-point grid makes impossible). -/
theorem claim_C1_amended (t0 t1 eta m c : ℚ) (y : ℚ → ℚ × ℚ)
    (hm : MASS_BOUNDS.1 ≤ m ∧ m ≤ MASS_BOUNDS.2)
    (hc : DAMPING_BOUNDS.1 ≤ c ∧ c ≤ DAMPING_BOUNDS.2)
    (hz : ∀ t ∈ linspace t0 t1 EVAL_POINTS, |(y t).1| ≤ MAX_DISPLACEMENT)
    (hf : ∀ t ∈ linspace t0 t1 EVAL_POINTS, |c * (y t).2| ≤ MAX_PTO_FORCE)
    (htail : steadyTail t0 t1 y = []) :
    objective_function_enhanced t0 t1 (.sol true y) eta m c =
      -(meanQ (elecPowerSeries eta c
        ((linspace t0 t1 EVAL_POINTS).map fun t => (y t).2))) := by
  rw [objective_pass t0 t1 eta m c y hm hc hz hf, htail]
  simp only [List.isEmpty_nil, if_true]

/-- C1 amended witness: the counterexample input again — empty tail,
score computed from the full series. -/
theorem claim_C1_amended_witness :
    objective_function_enhanced 0 (1999 / 100) (.sol true fun _ => (0, 1))
      (9 / 10) 20000 10000 =
      -(meanQ (elecPowerSeries (9 / 10) 10000
        ((linspace 0 (1999 / 100) EVAL_POINTS).map fun _ => (1 : ℚ)))) :=
  claim_C1_amended 0 (1999 / 100) (9 / 10) 20000 10000 (fun _ => (0, 1))
    (by norm_num [MASS_BOUNDS]) (by norm_num [DAMPING_BOUNDS])
    (by intro t ht; norm_num [MAX_DISPLACEMENT])
    (by intro t ht; norm_num [MAX_PTO_FORCE])
    steadyTail_short_empty
